import Mathlib

/-!
Verification of the real-time messaging / call-signaling backend.

Shallow embedding conventions:
* The relational store is modelled as in-memory lists of records
  (`List Call`, `List Message`, `List User`); a knex `where(...).first()`
  becomes `List.find?`, `update` becomes a `List.map` over matching rows,
  `insert ... returning('*')` appends the new record.
* Machine timestamps (`new Date()`) are natural numbers counting
  milliseconds; each service invocation receives one `now` parameter used
  for every `new Date()` it evaluates.
* `throw new AppError(msg, code)` becomes `Except.error ⟨msg, code⟩`.
* Database-generated ids (uuid defaults) become explicit `newId` inputs.
* The audit columns `created_at` / `updated_at` of the calls table and the
  json audit keys `created_via` / `client_timestamp` of metadata blobs are
  omitted: no claim mentions them and no modelled operation reads them.
  Messages keep `created_at` because the read projections order by it.
-/

/-- Millisecond timestamps, as produced by Date.getTime(). -/
abbrev Time := Nat

/-- Structured failure thrown by the services (message + HTTP status code). -/
structure AppError where
  message : String
  statusCode : Nat
deriving DecidableEq, Repr

deriving instance DecidableEq for Except

/-- Row of the users table (fields the modelled services consult). -/
structure User where
  id : String
  name : String
  avatar : Option String
  is_active : Bool
deriving DecidableEq, Repr

/-- The selector `db('users').where('id', uid).andWhere('is_active', true).first()`. -/
def findActiveUser (users : List User) (uid : String) : Option User :=
  users.find? (fun u => u.id == uid && u.is_active)

/-- Call lifecycle states stored in the calls.status column. -/
inductive CallStatus where
  | initiated
  | ringing
  | answered
  | ended
  | missed
  | rejected
deriving DecidableEq, Repr

/-- Status is one of the active (non-terminal) states checked by startCall. -/
def CallStatus.isNonTerminal (s : CallStatus) : Bool :=
  s == .initiated || s == .ringing || s == .answered

/-- Opaque signaling payload blobs (stored as stringified JSON). -/
abbrev Payload := String

/-- Signaling keys of the calls.metadata json column that the WebRTC
mutators touch; jsonb_set with create-missing leaves absent keys absent
until first written. -/
structure CallMetadata where
  offer : Option Payload
  answer : Option Payload
  ice_candidates : Option (List Payload)
deriving DecidableEq, Repr

/-- Metadata value startCall inserts (no signaling keys present yet). -/
def CallMetadata.empty : CallMetadata :=
  { offer := none, answer := none, ice_candidates := none }

/-- Row of the calls table. Nullable columns are Options; duration_seconds
is a nullable integer column with no default. -/
structure Call where
  id : String
  caller_id : String
  callee_id : String
  call_type : String
  status : CallStatus
  started_at : Time
  answered_at : Option Time
  ended_at : Option Time
  duration_seconds : Option Int
  end_reason : Option String
  metadata : CallMetadata
deriving DecidableEq, Repr

/-- The row startCall inserts (status initiated, started_at now, every
nullable column left at its column default of null). -/
def newCallRecord (newId callerId calleeId callType : String) (now : Time) : Call :=
  { id := newId
    caller_id := callerId
    callee_id := calleeId
    call_type := callType
    status := .initiated
    started_at := now
    answered_at := none
    ended_at := none
    duration_seconds := none
    end_reason := none
    metadata := CallMetadata.empty }

/-- The startCall conflict predicate: row involves caller or callee and its
status is in ('initiated', 'ringing', 'answered'). -/
def activeConflictRow (callerId calleeId : String) (c : Call) : Bool :=
  (c.caller_id == callerId || c.callee_id == callerId ||
   c.caller_id == calleeId || c.callee_id == calleeId) &&
  c.status.isNonTerminal

/-- CallService.startCall: validates the callee resolves to an active user,
rejects self-calls, rejects when either party already has a non-terminal
call, then inserts the new record. -/
def startCall (users : List User) (calls : List Call)
    (callerId calleeId callType newId : String) (now : Time) :
    Except AppError (Call × List Call) :=
  match findActiveUser users calleeId with
  | none => .error ⟨"Callee not found", 404⟩
  | some _ =>
    if callerId == calleeId then
      .error ⟨"Cannot call yourself", 400⟩
    else
      match calls.find? (activeConflictRow callerId calleeId) with
      | some _ => .error ⟨"User is already in a call", 409⟩
      | none =>
        let call := newCallRecord newId callerId calleeId callType now
        .ok (call, calls ++ [call])

/-- The selector `db('calls').where('id', callId).first()`. -/
def findCallById (calls : List Call) (callId : String) : Option Call :=
  calls.find? (fun c => c.id == callId)

/-- A knex `update` restricted to rows whose id matches. -/
def updateWhereId (calls : List Call) (callId : String) (f : Call → Call) : List Call :=
  calls.map (fun c => if c.id == callId then f c else c)

/-- The switch in updateCallStatus: answered stamps answered_at; the three
terminal targets stamp ended_at and recompute duration_seconds only when
answered_at is already set; every other target only rewrites status. -/
def applyStatusUpdate (call : Call) (status : CallStatus) (now : Time) : Call :=
  match status with
  | .answered => { call with status := status, answered_at := some now }
  | .ended | .missed | .rejected =>
    match call.answered_at with
    | some t =>
      { call with
        status := status, ended_at := some now,
        duration_seconds := some (Int.fdiv ((now : Int) - (t : Int)) 1000) }
    | none => { call with status := status, ended_at := some now }
  | _ => { call with status := status }

/-- CallService.updateCallStatus: 404 if the call id does not resolve, 403
if a supplied userId is neither caller nor callee, and otherwise applies
the requested status unconditionally (there is no legal-transition check). -/
def updateCallStatus (calls : List Call) (callId : String) (status : CallStatus)
    (userId : Option String) (now : Time) : Except AppError (Call × List Call) :=
  match findCallById calls callId with
  | none => .error ⟨"Call not found", 404⟩
  | some call =>
    match userId with
    | some uid =>
      if call.caller_id != uid && call.callee_id != uid then
        .error ⟨"Unauthorized to update this call", 403⟩
      else
        .ok (applyStatusUpdate call status now,
             updateWhereId calls callId (fun c => applyStatusUpdate c status now))
    | none =>
      .ok (applyStatusUpdate call status now,
           updateWhereId calls callId (fun c => applyStatusUpdate c status now))

/-- The row rewrite endCall performs once its guard passed. -/
def applyEndUpdate (call : Call) (endReason : String) (now : Time) : Call :=
  let duration : Int :=
    match call.answered_at with
    | some t => Int.fdiv ((now : Int) - (t : Int)) 1000
    | none => 0
  { call with
    status := .ended, ended_at := some now,
    duration_seconds := some duration, end_reason := some endReason }

/-- CallService.endCall: finds the call among those the acting user is a
party to, rejects only when its status is already exactly 'ended', then
terminates it recording end_reason and a duration (zero if never
answered). -/
def endCallRowPred (callId userId : String) (c : Call) : Bool :=
  c.id == callId && (c.caller_id == userId || c.callee_id == userId)

/-- CallService.endCall proper (see the selector predicate above). -/
def endCall (calls : List Call) (callId userId endReason : String) (now : Time) :
    Except AppError (Call × List Call) :=
  match calls.find? (endCallRowPred callId userId) with
  | none => .error ⟨"Call not found or unauthorized", 404⟩
  | some call =>
    if call.status == .ended then
      .error ⟨"Call already ended", 400⟩
    else
      .ok (applyEndUpdate call endReason now,
           updateWhereId calls callId (fun c => applyEndUpdate c endReason now))

/-- CallService.addIceCandidate: jsonb_set appends the candidate to the
ice_candidates array of the call's metadata, coalescing an absent array to
empty; rows with other ids are untouched, and a missing id is a no-op. -/
def iceAppendRow (candidate : Payload) (c : Call) : Call :=
  { c with metadata :=
      { c.metadata with
        ice_candidates := some ((c.metadata.ice_candidates.getD []) ++ [candidate]) } }

/-- CallService.addIceCandidate applies the row rewrite to the call (a
missing id is a no-op; other rows are untouched). -/
def addIceCandidate (calls : List Call) (callId : String) (candidate : Payload) : List Call :=
  updateWhereId calls callId (iceAppendRow candidate)

/-- Candidates accumulated so far, with the absent array read as empty
(matching the COALESCE in the SQL). -/
def Call.iceList (c : Call) : List Payload :=
  c.metadata.ice_candidates.getD []

/-- Non-terminal calls involving a user: the rows getActiveCall selects and
the subject of the one-active-call invariant. -/
def activeCallsOf (calls : List Call) (uid : String) : List Call :=
  calls.filter (fun c => (c.caller_id == uid || c.callee_id == uid) && c.status.isNonTerminal)

/-- The one-active-call-per-user invariant from the spec. -/
def oneActiveInvariant (calls : List Call) : Prop :=
  ∀ uid : String, (activeCallsOf calls uid).length ≤ 1

/-- States of the calls store reachable through the call service's
mutating operations, starting from the empty store. Inserted ids are
database-generated uuids, hence fresh. -/
inductive CallsReachable (users : List User) : List Call → Prop where
  | empty : CallsReachable users []
  | step_start {s : List Call} {a b k nid : String} {now : Time} {c : Call} {s2 : List Call}
      (prev : CallsReachable users s)
      (fresh : findCallById s nid = none)
      (h : startCall users s a b k nid now = .ok (c, s2)) :
      CallsReachable users s2
  | step_update {s : List Call} {cid : String} {st : CallStatus} {uid : Option String}
      {now : Time} {c : Call} {s2 : List Call}
      (prev : CallsReachable users s)
      (h : updateCallStatus s cid st uid now = .ok (c, s2)) :
      CallsReachable users s2
  | step_end {s : List Call} {cid u r : String} {now : Time} {c : Call} {s2 : List Call}
      (prev : CallsReachable users s)
      (h : endCall s cid u r now = .ok (c, s2)) :
      CallsReachable users s2

/-- Row of the messages table (audit metadata omitted; created_at kept
because the read projections order by it). -/
structure Message where
  id : String
  sender_id : String
  recipient_id : String
  content : String
  message_type : String
  file_url : Option String
  is_read : Bool
  read_at : Option Time
  is_deleted : Bool
  deleted_at : Option Time
  created_at : Time
deriving DecidableEq, Repr

/-- The row sendMessage inserts (read and delete flags at their column
defaults of false). -/
def newMessageRecord (newId senderId recipientId content messageType : String)
    (fileUrl : Option String) (now : Time) : Message :=
  { id := newId
    sender_id := senderId
    recipient_id := recipientId
    content := content
    message_type := messageType
    file_url := fileUrl
    is_read := false
    read_at := none
    is_deleted := false
    deleted_at := none
    created_at := now }

/-- MessageService.sendMessage: validates the recipient resolves to an
active user, then persists the message; delivery is not this function's
concern. -/
def sendMessage (users : List User) (msgs : List Message)
    (senderId recipientId content messageType : String) (fileUrl : Option String)
    (newId : String) (now : Time) : Except AppError (Message × List Message) :=
  match findActiveUser users recipientId with
  | none => .error ⟨"Recipient not found", 404⟩
  | some _ =>
    let m := newMessageRecord newId senderId recipientId content messageType fileUrl now
    .ok (m, msgs ++ [m])

/-- MessageService.markMessageAsRead: one update filtered on id, recipient
and is_read=false; returns the affected-row count. The source has no throw
path, so the Except error branch is never taken. -/
def markMessageAsRead (msgs : List Message) (messageId userId : String) (now : Time) :
    Except AppError (Nat × List Message) :=
  let hit := fun m : Message => m.id == messageId && m.recipient_id == userId && !m.is_read
  .ok ((msgs.filter hit).length,
       msgs.map (fun m => if hit m then { m with is_read := true, read_at := some now } else m))

/-- MessageService.markMessagesAsRead: same update filtered on sender,
recipient and is_read=false. -/
def markMessagesAsRead (msgs : List Message) (senderId recipientId : String) (now : Time) :
    Except AppError (Nat × List Message) :=
  let hit := fun m : Message =>
    m.sender_id == senderId && m.recipient_id == recipientId && !m.is_read
  .ok ((msgs.filter hit).length,
       msgs.map (fun m => if hit m then { m with is_read := true, read_at := some now } else m))

/-- Insertion step for the ORDER BY ... DESC modelling. -/
def insertDescBy (key : Message → Time) (a : Message) : List Message → List Message
  | [] => [a]
  | x :: xs => if key x < key a then a :: x :: xs else x :: insertDescBy key a xs

/-- Sort a list of messages by a key, descending (models ORDER BY created_at
DESC; ties keep the store order, a determinisation of the unspecified SQL
tie order). -/
def sortDescBy (key : Message → Time) : List Message → List Message
  | [] => []
  | x :: xs => insertDescBy key x (sortDescBy key xs)

/-- LIMIT/OFFSET pagination. -/
def paginate (page limit : Nat) (l : List Message) : List Message :=
  (l.drop ((page - 1) * limit)).take limit

/-- Rows of the two-party message query inside getMessageHistory. -/
def historyRowFilter (userId otherUserId : String) (m : Message) : Bool :=
  ((m.sender_id == userId && m.recipient_id == otherUserId) ||
   (m.sender_id == otherUserId && m.recipient_id == userId)) &&
  !m.is_deleted

/-- MessageService.getMessageHistory: validates the other user, selects the
non-deleted messages between the two parties ordered newest first,
paginates, and reverses the page into chronological order. -/
def getMessageHistory (users : List User) (msgs : List Message)
    (userId otherUserId : String) (page limit : Nat) :
    Except AppError (List Message) :=
  match findActiveUser users otherUserId with
  | none => .error ⟨"User not found", 404⟩
  | some _ =>
    .ok ((paginate page limit
          (sortDescBy Message.created_at
            (msgs.filter (historyRowFilter userId otherUserId)))).reverse)

/-- Case-insensitive substring test modelling SQL `content ILIKE '%q%'`. -/
def ilikeContains (s q : String) : Bool :=
  if q.toLower.isEmpty then true else (s.toLower.splitOn q.toLower).length > 1

/-- Rows the searchMessages query selects. -/
def searchRowFilter (userId query : String) (m : Message) : Bool :=
  (m.sender_id == userId || m.recipient_id == userId) &&
  !m.is_deleted && ilikeContains m.content query

/-- MessageService.searchMessages: non-deleted messages involving the user
whose content matches the query, newest first, paginated. The joined
sender/recipient display names are dropped from the model: no claim reads
them. -/
def searchMessages (msgs : List Message) (userId query : String) (page limit : Nat) :
    List Message :=
  paginate page limit
    (sortDescBy Message.created_at (msgs.filter (searchRowFilter userId query)))

/-- The CASE expression computing the counterpart of a message from the
requesting user's point of view. -/
def otherUserOf (userId : String) (m : Message) : String :=
  if m.sender_id == userId then m.recipient_id else m.sender_id

/-- Rows of the ranked_messages CTE: messages involving the user that are
not deleted. -/
def conversationRowFilter (userId : String) (m : Message) : Bool :=
  (m.sender_id == userId || m.recipient_id == userId) && !m.is_deleted

/-- First-occurrence deduplication of counterpart ids (the effect of
PARTITION BY other_user_id: one row per distinct counterpart). -/
def dedupKeys (seen : List String) : List String → List String
  | [] => []
  | x :: xs =>
    if seen.contains x then dedupKeys seen xs
    else x :: dedupKeys (x :: seen) xs

/-- The latest message of a partition (ROW_NUMBER ... ORDER BY created_at
DESC, rn = 1): the row with maximal created_at, first occurrence winning
ties — a determinisation of the unspecified SQL tie order. -/
def latestOf (l : List Message) : Option Message :=
  l.foldl (fun acc m =>
    match acc with
    | none => some m
    | some b => if b.created_at < m.created_at then some m else acc) none

/-- One conversation row of the getConversations result set. -/
structure ConversationRow where
  latest : Message
  other_user_id : String
  other_user_name : String
  other_user_avatar : Option String
  unread_count : Nat
deriving DecidableEq, Repr

/-- The LEFT JOINed unread subquery: messages to the user from the given
counterpart that are unread and not deleted. -/
def unreadCountFrom (msgs : List Message) (userId senderId : String) : Nat :=
  (msgs.filter (fun m =>
    m.recipient_id == userId && m.sender_id == senderId &&
    !m.is_read && !m.is_deleted)).length

/-- Descending insertion of a conversation row by latest-message time
(ORDER BY lm.created_at DESC, ties determinised to store order). -/
def convInsert (r : ConversationRow) (acc : List ConversationRow) : List ConversationRow :=
  acc.takeWhile (fun x => r.latest.created_at < x.latest.created_at) ++
    r :: acc.dropWhile (fun x => r.latest.created_at < x.latest.created_at)

/-- Sort conversation rows by latest-message time, descending. -/
def convSortDesc (l : List ConversationRow) : List ConversationRow :=
  l.foldr convInsert []

/-- MessageService.getConversations (data rows): one row per distinct
active counterpart carrying that conversation's latest non-deleted message
and the unread count, ordered by latest message time descending, then
paginated. -/
def getConversations (users : List User) (msgs : List Message) (userId : String)
    (page limit : Nat) : List ConversationRow :=
  let ranked := msgs.filter (conversationRowFilter userId)
  let partners := dedupKeys [] (ranked.map (otherUserOf userId))
  let rows := partners.filterMap (fun p =>
    match latestOf (ranked.filter (fun m => otherUserOf userId m == p)),
          findActiveUser users p with
    | some lm, some u =>
      some { latest := lm, other_user_id := p, other_user_name := u.name,
             other_user_avatar := u.avatar,
             unread_count := unreadCountFrom msgs userId p }
    | _, _ => none)
  ((convSortDesc rows).drop ((page - 1) * limit)).take limit

/-- Association-list lookup, modelling JS Map.get. -/
def aget (m : List (String × String)) (k : String) : Option String :=
  (m.find? (fun p => p.fst == k)).map Prod.snd

/-- Association-list overwrite, modelling JS Map.set (replaces any prior
binding for the key). -/
def aset (m : List (String × String)) (k v : String) : List (String × String) :=
  (k, v) :: m.filter (fun p => p.fst != k)

/-- Association-list removal, modelling JS Map.delete. -/
def aerase (m : List (String × String)) (k : String) : List (String × String) :=
  m.filter (fun p => p.fst != k)

/-- One entry of the connectedUsers map. -/
structure SocketUser where
  userId : String
  socketId : String
  isOnline : Bool
  lastSeen : Time
deriving DecidableEq, Repr

/-- Association list for the socketId-keyed connectedUsers map. -/
def cset (m : List (String × SocketUser)) (k : String) (v : SocketUser) :
    List (String × SocketUser) :=
  (k, v) :: m.filter (fun p => p.fst != k)

/-- Association-list removal for the connectedUsers map. -/
def cerase (m : List (String × SocketUser)) (k : String) : List (String × SocketUser) :=
  m.filter (fun p => p.fst != k)

/-- In-memory routing state of the SocketHandler: connectedUsers keyed by
socket id and userSocketMap keyed by user id. -/
structure SocketState where
  connectedUsers : List (String × SocketUser)
  userSocketMap : List (String × String)
deriving DecidableEq, Repr

/-- The empty registry at process start. -/
def SocketState.empty : SocketState :=
  { connectedUsers := [], userSocketMap := [] }

/-- Registry mutation of SocketHandler.handleConnection: records the
connection under its socket id and points the user's mapping at it
(last-connected-wins). Event wiring and the status broadcast carry no
registry state and are not modelled. -/
def handleConnection (st : SocketState) (userId socketId : String) (now : Time) :
    SocketState :=
  { connectedUsers := cset st.connectedUsers socketId
      { userId := userId, socketId := socketId, isOnline := true, lastSeen := now }
    userSocketMap := aset st.userSocketMap userId socketId }

/-- Registry mutation of SocketHandler.handleDisconnection: drops the
connection's entry and deletes the user's mapping unconditionally — there
is no check that the mapping still points at the disconnecting socket. -/
def handleDisconnection (st : SocketState) (userId socketId : String) : SocketState :=
  { connectedUsers := cerase st.connectedUsers socketId
    userSocketMap := aerase st.userSocketMap userId }

/-- Presence lookup: `this.userSocketMap.get(uid)` as used before every
push (and by getUserOnlineStatus). -/
def lookupSocket (st : SocketState) (userId : String) : Option String :=
  aget st.userSocketMap userId

/-- Events the handlers emit to specific sockets. A newMessage push records
the transport outcome the emit call would produce; the handler ignores it. -/
inductive PushEvent where
  | newMessage (socketId : String) (msg : Message) (delivered : Bool)
  | messageRead (socketId readBy : String) (messageId : Option String) (timestamp : Time)
deriving DecidableEq, Repr

/-- Outcome of the send_message socket event: the acknowledgement returned
to the sender, the resulting store, and the pushes emitted. -/
structure SendMessageResult where
  ack_success : Bool
  ack_error : Option String
  ack_data : Option Message
  store : List Message
  pushes : List PushEvent
deriving DecidableEq, Repr

/-- The send_message handler: guards the JS-falsy required fields, calls
MessageService.sendMessage, then pushes new_message to the recipient's
socket when the presence map has one; pushOk is the transport outcome of
that emit, which the handler never reads. -/
def handleSendMessage (users : List User) (msgs : List Message) (st : SocketState)
    (senderId recipientId content messageType : String) (fileUrl : Option String)
    (newId : String) (now : Time) (pushOk : Bool) : SendMessageResult :=
  if recipientId == "" || content == "" then
    { ack_success := false, ack_error := some "Missing required fields",
      ack_data := none, store := msgs, pushes := [] }
  else
    match sendMessage users msgs senderId recipientId content messageType fileUrl newId now with
    | .error e =>
      { ack_success := false, ack_error := some e.message,
        ack_data := none, store := msgs, pushes := [] }
    | .ok (m, msgs2) =>
      let pushes :=
        match lookupSocket st recipientId with
        | some sid => [PushEvent.newMessage sid m pushOk]
        | none => []
      { ack_success := true, ack_error := none, ack_data := some m,
        store := msgs2, pushes := pushes }

/-- Outcome of the mark_read socket event. -/
structure MarkReadResult where
  ack_success : Bool
  ack_error : Option String
  store : List Message
  pushes : List PushEvent
deriving DecidableEq, Repr

/-- JS truthiness of an optional string field of the event payload. -/
def truthy (o : Option String) : Bool :=
  o.getD "" != ""

/-- The mark_read handler: marks one message (or all from a sender) read,
then pushes message_read to the socket of the senderId named in the
request — unconditionally, keyed only on that sender being online, not on
whether any row was updated. -/
def handleMarkRead (msgs : List Message) (st : SocketState) (readerId : String)
    (messageId senderId : Option String) (now : Time) : MarkReadResult :=
  let step : Except AppError (List Message) :=
    if truthy messageId then
      (markMessageAsRead msgs (messageId.getD "") readerId now).map Prod.snd
    else if truthy senderId then
      (markMessagesAsRead msgs (senderId.getD "") readerId now).map Prod.snd
    else
      .ok msgs
  match step with
  | .error e =>
    { ack_success := false, ack_error := some e.message, store := msgs, pushes := [] }
  | .ok msgs2 =>
    let pushes :=
      match senderId with
      | some sid =>
        match lookupSocket st sid with
        | some ssid => [PushEvent.messageRead ssid readerId messageId now]
        | none => []
      | none => []
    { ack_success := true, ack_error := none, store := msgs2, pushes := pushes }

/-- Spec-level: the identity resolves to an active account. -/
def resolvesToActiveAccount (users : List User) (uid : String) : Prop :=
  ∃ u ∈ users, u.id = uid ∧ u.is_active = true

/-- Spec-level: some stored call involving either party is non-terminal. -/
def hasNonTerminalCallInvolving (calls : List Call) (a b : String) : Prop :=
  ∃ c ∈ calls,
    (c.caller_id = a ∨ c.callee_id = a ∨ c.caller_id = b ∨ c.callee_id = b) ∧
    c.status.isNonTerminal = true

instance (users : List User) (uid : String) :
    Decidable (resolvesToActiveAccount users uid) :=
  inferInstanceAs (Decidable (∃ u ∈ users, u.id = uid ∧ u.is_active = true))

instance (calls : List Call) (a b : String) :
    Decidable (hasNonTerminalCallInvolving calls a b) :=
  inferInstanceAs (Decidable (∃ c ∈ calls,
    (c.caller_id = a ∨ c.callee_id = a ∨ c.caller_id = b ∨ c.callee_id = b) ∧
    c.status.isNonTerminal = true))

theorem findActiveUser_eq_none_iff (users : List User) (uid : String) :
    findActiveUser users uid = none ↔ ¬ resolvesToActiveAccount users uid := by
  rw [findActiveUser, List.find?_eq_none]
  constructor
  · rintro h ⟨u, hu, hid, hact⟩
    exact h u hu (by simp [hid, hact])
  · intro h u hu hp
    simp only [Bool.and_eq_true, beq_iff_eq] at hp
    exact h ⟨u, hu, hp.1, hp.2⟩

theorem findActiveUser_isSome_iff (users : List User) (uid : String) :
    (findActiveUser users uid).isSome = true ↔ resolvesToActiveAccount users uid := by
  rw [findActiveUser, List.find?_isSome]
  constructor
  · rintro ⟨u, hu, hp⟩
    simp only [Bool.and_eq_true, beq_iff_eq] at hp
    exact ⟨u, hu, hp.1, hp.2⟩
  · rintro ⟨u, hu, hid, hact⟩
    exact ⟨u, hu, by simp [hid, hact]⟩

theorem conflict_find_isSome_iff (calls : List Call) (a b : String) :
    (calls.find? (activeConflictRow a b)).isSome = true ↔
      hasNonTerminalCallInvolving calls a b := by
  rw [List.find?_isSome]
  constructor
  · rintro ⟨c, hc, hp⟩
    simp only [activeConflictRow, Bool.and_eq_true, Bool.or_eq_true, beq_iff_eq] at hp
    exact ⟨c, hc, by tauto, hp.2⟩
  · rintro ⟨c, hc, hinv, hnt⟩
    refine ⟨c, hc, ?_⟩
    simp only [activeConflictRow, Bool.and_eq_true, Bool.or_eq_true, beq_iff_eq]
    exact ⟨by tauto, hnt⟩

theorem findCallById_updateWhereId (calls : List Call) (cid : String) (f : Call → Call)
    (hid : ∀ c, (f c).id = c.id) :
    findCallById (updateWhereId calls cid f) cid = (findCallById calls cid).map f := by
  induction calls with
  | nil => rfl
  | cons c rest ih =>
    have hcons : updateWhereId (c :: rest) cid f =
        (if c.id == cid then f c else c) :: updateWhereId rest cid f := rfl
    rw [hcons]
    by_cases h : (c.id == cid) = true
    · rw [if_pos h]
      show List.find? (fun x => x.id == cid) (f c :: updateWhereId rest cid f) =
        Option.map f (List.find? (fun x => x.id == cid) (c :: rest))
      rw [List.find?_cons_of_pos (p := fun x : Call => x.id == cid) _
          (show ((f c).id == cid) = true by rw [hid c]; exact h),
        List.find?_cons_of_pos (p := fun x : Call => x.id == cid) _ h]
      rfl
    · rw [if_neg h]
      show List.find? (fun x => x.id == cid) (c :: updateWhereId rest cid f) =
        Option.map f (List.find? (fun x => x.id == cid) (c :: rest))
      rw [List.find?_cons_of_neg (p := fun x : Call => x.id == cid) _ h,
        List.find?_cons_of_neg (p := fun x : Call => x.id == cid) _ h]
      exact ih

/-- Sequential appendIceCandidate invocations on the same call. -/
def appendIceCandidates (calls : List Call) (cid : String) (cands : List Payload) :
    List Call :=
  cands.foldl (fun db cand => addIceCandidate db cid cand) calls

/-- Claim C9: appendIceCandidate appends each candidate to the end of the
accumulated ice_candidates sequence in the call's metadata; after appending
a list of n candidates, the sequence holds the earlier entries followed by
all n new ones in invocation order. -/
theorem addIceCandidate_accumulates (calls : List Call) (cid : String) (c : Call)
    (cands : List Payload) (hfind : findCallById calls cid = some c) :
    ∃ c2, findCallById (appendIceCandidates calls cid cands) cid = some c2 ∧
      c2.iceList = c.iceList ++ cands := by
  induction cands generalizing calls c with
  | nil => exact ⟨c, by simpa [appendIceCandidates] using hfind, by simp⟩
  | cons cand rest ih =>
    have hstep : findCallById (addIceCandidate calls cid cand) cid =
        some (iceAppendRow cand c) := by
      rw [addIceCandidate,
        findCallById_updateWhereId calls cid (iceAppendRow cand) (fun _ => rfl), hfind]
      rfl
    obtain ⟨c2, hf2, hl2⟩ := ih (addIceCandidate calls cid cand) (iceAppendRow cand c) hstep
    refine ⟨c2, hf2, ?_⟩
    rw [hl2]
    simp [Call.iceList, iceAppendRow]

/-- Claim C9 witness: three candidates appended to a fresh call accumulate
in order. -/
theorem addIceCandidate_accumulates_witness :
    findCallById [newCallRecord "c9" "A" "B" "voice" 0] "c9" =
      some (newCallRecord "c9" "A" "B" "voice" 0) ∧
    ∃ c2, findCallById
        (appendIceCandidates [newCallRecord "c9" "A" "B" "voice" 0] "c9" ["x", "y", "z"]) "c9" =
        some c2 ∧
      c2.iceList = (newCallRecord "c9" "A" "B" "voice" 0).iceList ++ ["x", "y", "z"] :=
  ⟨rfl, addIceCandidate_accumulates _ _ _ _ rfl⟩

theorem aget_aset (m : List (String × String)) (k v : String) :
    aget (aset m k v) k = some v := by
  simp [aget, aset, List.find?_cons_of_pos]

theorem aget_aerase (m : List (String × String)) (k : String) :
    aget (aerase m k) k = none := by
  have hnone : List.find? (fun p => p.fst == k) (aerase m k) = none := by
    rw [List.find?_eq_none]
    intro p hp
    have h2 := (List.mem_filter.mp hp).2
    simpa using h2
  simp [aget, hnone]

/-- Claim C4 (amended): registering a second connection for the same user
makes the lookup return the newer handle, but a later disconnect event for
the stale handle removes the user's mapping unconditionally — the lookup
then returns absent rather than the newer handle. -/
theorem register_last_wins_disconnect_unconditional (st : SocketState)
    (u h1 h2 : String) (t1 t2 : Time) :
    lookupSocket (handleConnection (handleConnection st u h1 t1) u h2 t2) u = some h2 ∧
    lookupSocket
      (handleDisconnection (handleConnection (handleConnection st u h1 t1) u h2 t2) u h1)
      u = none := by
  constructor
  · exact aget_aset _ u h2
  · exact aget_aerase _ u

/-- Claim C4 counterexample: after register(U, h1); register(U, h2), the
stale unregister(U, h1) is not a no-op — the presence lookup of U returns
absent instead of h2. -/
theorem stale_disconnect_evicts_newer_connection :
    lookupSocket (handleConnection (handleConnection SocketState.empty "U" "h1" 1) "U" "h2" 2)
      "U" = some "h2" ∧
    lookupSocket
      (handleDisconnection
        (handleConnection (handleConnection SocketState.empty "U" "h1" 1) "U" "h2" 2)
        "U" "h1") "U" ≠ some "h2" ∧
    lookupSocket
      (handleDisconnection
        (handleConnection (handleConnection SocketState.empty "U" "h1" 1) "U" "h2" 2)
        "U" "h1") "U" = none := by
  refine ⟨rfl, ?_, rfl⟩
  decide

/-- Claim C5: startCall fails with NotFound when the callee does not
resolve to an active account; otherwise with InvalidArgument (400) when
caller equals callee; otherwise with Conflict (409) when either party
already has a non-terminal call; otherwise it creates exactly one record
in status initiated with started_at set to now. -/
theorem startCall_error_taxonomy (users : List User) (calls : List Call)
    (a b k nid : String) (now : Time) :
    (¬ resolvesToActiveAccount users b →
      startCall users calls a b k nid now = .error ⟨"Callee not found", 404⟩) ∧
    (resolvesToActiveAccount users b → a = b →
      startCall users calls a b k nid now = .error ⟨"Cannot call yourself", 400⟩) ∧
    (resolvesToActiveAccount users b → a ≠ b → hasNonTerminalCallInvolving calls a b →
      startCall users calls a b k nid now = .error ⟨"User is already in a call", 409⟩) ∧
    (resolvesToActiveAccount users b → a ≠ b → ¬ hasNonTerminalCallInvolving calls a b →
      startCall users calls a b k nid now =
        .ok (newCallRecord nid a b k now, calls ++ [newCallRecord nid a b k now]) ∧
      (newCallRecord nid a b k now).status = .initiated ∧
      (newCallRecord nid a b k now).started_at = now) := by
  refine ⟨?_, ?_, ?_, ?_⟩
  · intro h
    have hu : findActiveUser users b = none := (findActiveUser_eq_none_iff users b).mpr h
    simp [startCall, hu]
  · intro hres hab
    cases hu : findActiveUser users b with
    | none =>
      rw [findActiveUser_eq_none_iff] at hu
      exact absurd hres hu
    | some u => simp [startCall, hu, hab]
  · intro hres hne hconf
    cases hu : findActiveUser users b with
    | none =>
      rw [findActiveUser_eq_none_iff] at hu
      exact absurd hres hu
    | some u =>
      have hsome : (calls.find? (activeConflictRow a b)).isSome = true :=
        (conflict_find_isSome_iff calls a b).mpr hconf
      cases hc : calls.find? (activeConflictRow a b) with
      | none => rw [hc] at hsome; simp at hsome
      | some c =>
        have hab : (a == b) = false := beq_eq_false_iff_ne.mpr hne
        simp [startCall, hu, hab, hc]
  · intro hres hne hconf
    cases hu : findActiveUser users b with
    | none =>
      rw [findActiveUser_eq_none_iff] at hu
      exact absurd hres hu
    | some u =>
      have hc : calls.find? (activeConflictRow a b) = none := by
        cases hx : calls.find? (activeConflictRow a b) with
        | none => rfl
        | some c =>
          exfalso
          apply hconf
          rw [← conflict_find_isSome_iff]
          rw [hx]
          rfl
      have hab : (a == b) = false := beq_eq_false_iff_ne.mpr hne
      exact ⟨by simp [startCall, hu, hab, hc], rfl, rfl⟩

/-- Claim C5 witness: each branch of the taxonomy exercised at a concrete
input — unknown callee, self-call, and a clean success. -/
theorem startCall_error_taxonomy_witness :
    startCall [] [] "A" "B" "voice" "n1" 7 = .error ⟨"Callee not found", 404⟩ ∧
    startCall [{ id := "B", name := "B", avatar := none, is_active := true }] []
      "B" "B" "voice" "n1" 7 = .error ⟨"Cannot call yourself", 400⟩ ∧
    startCall [{ id := "B", name := "B", avatar := none, is_active := true }] []
      "A" "B" "voice" "n1" 7 =
      .ok (newCallRecord "n1" "A" "B" "voice" 7, [newCallRecord "n1" "A" "B" "voice" 7]) :=
  ⟨(startCall_error_taxonomy [] [] "A" "B" "voice" "n1" 7).1 (by decide),
   (startCall_error_taxonomy
      [{ id := "B", name := "B", avatar := none, is_active := true }] []
      "B" "B" "voice" "n1" 7).2.1 (by decide) rfl,
   ((startCall_error_taxonomy
      [{ id := "B", name := "B", avatar := none, is_active := true }] []
      "A" "B" "voice" "n1" 7).2.2.2 (by decide) (by decide) (by decide)).1⟩

/-- When no stored message satisfies the update's row filter, the
mark-read update affects zero rows and returns the store unchanged. -/
theorem markMessageAsRead_noop_of_no_hit (msgs : List Message) (mid uid : String)
    (now : Time)
    (hfalse : ∀ m ∈ msgs,
      (m.id == mid && m.recipient_id == uid && !m.is_read) = false) :
    markMessageAsRead msgs mid uid now = .ok (0, msgs) := by
  have h1 : msgs.filter (fun m => m.id == mid && m.recipient_id == uid && !m.is_read) = [] := by
    rw [List.filter_eq_nil_iff]
    intro m hm
    simp [hfalse m hm]
  have h2 : msgs.map (fun m =>
      if m.id == mid && m.recipient_id == uid && !m.is_read then
        { m with is_read := true, read_at := some now } else m) = msgs := by
    conv_rhs => rw [← List.map_id msgs]
    apply List.map_congr_left
    intro m hm
    simp [hfalse m hm]
  simp only [markMessageAsRead, h1, h2, List.length_nil]

/-- Claim C10: markMessageAsRead (and markMessagesAsRead) never raises —
every invocation returns ok — and when no stored message has the given id
with the acting user as recipient, the operation completes as a silent
no-op: the store is returned unchanged with an affected-row count of
zero. -/
theorem markMessageAsRead_silent_noop (msgs : List Message) (mid uid sid rid : String)
    (now : Time) :
    (∃ r, markMessageAsRead msgs mid uid now = .ok r) ∧
    (∃ r, markMessagesAsRead msgs sid rid now = .ok r) ∧
    ((∀ m ∈ msgs, ¬(m.id = mid ∧ m.recipient_id = uid)) →
      markMessageAsRead msgs mid uid now = .ok (0, msgs)) := by
  refine ⟨⟨_, rfl⟩, ⟨_, rfl⟩, ?_⟩
  intro h
  apply markMessageAsRead_noop_of_no_hit
  intro m hm
  have hne := h m hm
  cases hx : (m.id == mid && m.recipient_id == uid && !m.is_read) with
  | false => rfl
  | true =>
    exfalso
    simp only [Bool.and_eq_true, beq_iff_eq] at hx
    exact hne ⟨hx.1.1, hx.1.2⟩

/-- Claim C10 witness: marking an unknown message id for a user who is not
the recipient of any matching record is a silent no-op. -/
theorem markMessageAsRead_silent_noop_witness :
    markMessageAsRead
      [{ id := "m1", sender_id := "A", recipient_id := "B", content := "hi",
         message_type := "text", file_url := none, is_read := false, read_at := none,
         is_deleted := false, deleted_at := none, created_at := 1 }] "zz" "B" 5 =
      .ok (0,
        [{ id := "m1", sender_id := "A", recipient_id := "B", content := "hi",
           message_type := "text", file_url := none, is_read := false, read_at := none,
           is_deleted := false, deleted_at := none, created_at := 1 }]) :=
  (markMessageAsRead_silent_noop _ "zz" "B" "s" "r" 5).2.2 (by decide)

/-- A call record already in the terminal state 'ended'. -/
def endedCallCx : Call :=
  { id := "c1", caller_id := "A", callee_id := "B", call_type := "voice",
    status := .ended, started_at := 0, answered_at := none, ended_at := some 1000,
    duration_seconds := some 0, end_reason := some "completed",
    metadata := CallMetadata.empty }

/-- Claim C2 counterexample: a transition request on an already-ended call
does not fail with InvalidState — updateCallStatus succeeds, moves the call
back to 'answered' and changes its fields (answered_at is stamped). -/
theorem updateCallStatus_revives_ended_call :
    updateCallStatus [endedCallCx] "c1" .answered (some "A") 9000 =
      .ok ({ endedCallCx with status := .answered, answered_at := some 9000 },
           [{ endedCallCx with status := .answered, answered_at := some 9000 }]) ∧
    ({ endedCallCx with status := .answered, answered_at := some 9000 }).answered_at ≠
      endedCallCx.answered_at := by
  refine ⟨rfl, ?_⟩
  decide

/-- Claim C2 (amended): updateCallStatus never rejects a transition for
being in a terminal state — on any resolvable, authorized call it succeeds
for every target status. Only endCall checks terminality, failing (with
status 400, 'Call already ended') exactly when the status is 'ended';
endCall on a 'missed' or 'rejected' call succeeds and re-terminalizes it. -/
theorem terminal_guard_only_in_endCall (calls : List Call) (cid uid r : String)
    (st : CallStatus) (now : Time) (c : Call)
    (hauth : c.caller_id = uid ∨ c.callee_id = uid) :
    (findCallById calls cid = some c →
      ∃ res, updateCallStatus calls cid st (some uid) now = .ok res) ∧
    (calls.find? (endCallRowPred cid uid) = some c → c.status = .ended →
      endCall calls cid uid r now = .error ⟨"Call already ended", 400⟩) ∧
    (calls.find? (endCallRowPred cid uid) = some c →
      c.status = .missed ∨ c.status = .rejected →
      ∃ res, endCall calls cid uid r now = .ok res) := by
  refine ⟨?_, ?_, ?_⟩
  · intro hfind
    have hne : (c.caller_id != uid && c.callee_id != uid) = false := by
      rcases hauth with h | h <;> simp [h]
    exact ⟨(applyStatusUpdate c st now,
            updateWhereId calls cid (fun x => applyStatusUpdate x st now)),
           by simp [updateCallStatus, hfind, hne]⟩
  · intro hfind hst
    simp [endCall, hfind, hst]
  · intro hfind hst
    have hguard : (c.status == CallStatus.ended) = false := by
      rcases hst with h | h <;> simp [h]
    exact ⟨(applyEndUpdate c r now,
            updateWhereId calls cid (fun x => applyEndUpdate x r now)),
           by simp [endCall, hfind, hguard]⟩

/-- Claim C2 witness: on the concrete ended call, updateCallStatus to
'ringing' succeeds while endCall fails with the 400 guard. -/
theorem terminal_guard_only_in_endCall_witness :
    (∃ res, updateCallStatus [endedCallCx] "c1" .ringing (some "A") 9000 = .ok res) ∧
    endCall [endedCallCx] "c1" "A" "bye" 9000 = .error ⟨"Call already ended", 400⟩ :=
  ⟨(terminal_guard_only_in_endCall [endedCallCx] "c1" "A" "bye" .ringing 9000 endedCallCx
      (Or.inl rfl)).1 rfl,
   (terminal_guard_only_in_endCall [endedCallCx] "c1" "A" "bye" .ringing 9000 endedCallCx
      (Or.inl rfl)).2.1 rfl rfl⟩

/-- A call created by startCall that was never answered: answered_at and
duration_seconds are both at their null column defaults. -/
def unansweredCallCx : Call := newCallRecord "c1" "A" "B" "voice" 0

/-- Claim C3 counterexample: ending a never-answered call through
updateCallStatus (here to 'missed') stamps ended_at but leaves
duration_seconds null — not zero as the claim states. -/
theorem unanswered_terminal_keeps_null_duration :
    updateCallStatus [unansweredCallCx] "c1" .missed none 5000 =
      .ok ({ unansweredCallCx with status := .missed, ended_at := some 5000 },
           [{ unansweredCallCx with status := .missed, ended_at := some 5000 }]) ∧
    ({ unansweredCallCx with status := .missed, ended_at := some 5000 }).duration_seconds =
      none ∧
    ({ unansweredCallCx with status := .missed, ended_at := some 5000 }).duration_seconds ≠
      some 0 := by
  refine ⟨rfl, rfl, ?_⟩
  decide

/-- Claim C3 (amended): entering a terminal state via updateCallStatus sets
ended_at to now and sets duration_seconds to the whole-second difference
ended_at minus answered_at when the call was answered, but leaves
duration_seconds unchanged (null for a never-answered startCall record)
when answered_at is unset; only endCall writes a zero duration for a
never-answered call. -/
theorem terminal_entry_duration (calls : List Call) (cid uid r : String)
    (st : CallStatus) (now : Time) (c : Call)
    (hterm : st = .ended ∨ st = .missed ∨ st = .rejected) :
    (∀ t, findCallById calls cid = some c → c.answered_at = some t →
      ∃ s2, updateCallStatus calls cid st none now =
        .ok ({ c with
               status := st, ended_at := some now,
               duration_seconds := some (Int.fdiv ((now : Int) - (t : Int)) 1000) }, s2)) ∧
    (findCallById calls cid = some c → c.answered_at = none →
      ∃ s2, updateCallStatus calls cid st none now =
        .ok ({ c with status := st, ended_at := some now }, s2)) ∧
    (calls.find? (endCallRowPred cid uid) = some c → c.status ≠ .ended →
      ∃ s2, endCall calls cid uid r now = .ok (applyEndUpdate c r now, s2) ∧
        (applyEndUpdate c r now).ended_at = some now ∧
        (c.answered_at = none → (applyEndUpdate c r now).duration_seconds = some 0) ∧
        (∀ t, c.answered_at = some t →
          (applyEndUpdate c r now).duration_seconds =
            some (Int.fdiv ((now : Int) - (t : Int)) 1000))) := by
  refine ⟨?_, ?_, ?_⟩
  · intro t hfind hans
    refine ⟨updateWhereId calls cid (fun x => applyStatusUpdate x st now), ?_⟩
    rcases hterm with h | h | h <;> subst h <;>
      simp [updateCallStatus, hfind, applyStatusUpdate, hans]
  · intro hfind hans
    refine ⟨updateWhereId calls cid (fun x => applyStatusUpdate x st now), ?_⟩
    rcases hterm with h | h | h <;> subst h <;>
      simp [updateCallStatus, hfind, applyStatusUpdate, hans]
  · intro hfind hst
    have hguard : (c.status == CallStatus.ended) = false := by
      cases hcs : c.status <;> simp_all
    refine ⟨updateWhereId calls cid (fun x => applyEndUpdate x r now),
      by simp [endCall, hfind, hguard], rfl, ?_, ?_⟩
    · intro h
      simp [applyEndUpdate, h]
    · intro t ht
      simp [applyEndUpdate, ht]

/-- A call answered at T0 = 1000 ms. -/
def answeredCallCx : Call :=
  { newCallRecord "c3" "A" "B" "voice" 0 with status := .answered, answered_at := some 1000 }

/-- Claim C3 witness: the spec scenario — answered at T0, ended at T0+42s
gives 42 whole seconds; endCall on a never-answered call writes zero. -/
theorem terminal_entry_duration_witness :
    (∃ s2, updateCallStatus [answeredCallCx] "c3" .ended none 43000 =
      .ok ({ answeredCallCx with
             status := .ended, ended_at := some 43000,
             duration_seconds := some (Int.fdiv ((43000 : Int) - (1000 : Int)) 1000) }, s2)) ∧
    Int.fdiv ((43000 : Int) - (1000 : Int)) 1000 = 42 ∧
    (∃ s2, endCall [unansweredCallCx] "c1" "A" "bye" 5000 =
      .ok (applyEndUpdate unansweredCallCx "bye" 5000, s2) ∧
      (applyEndUpdate unansweredCallCx "bye" 5000).ended_at = some 5000 ∧
      (unansweredCallCx.answered_at = none →
        (applyEndUpdate unansweredCallCx "bye" 5000).duration_seconds = some 0) ∧
      (∀ t, unansweredCallCx.answered_at = some t →
        (applyEndUpdate unansweredCallCx "bye" 5000).duration_seconds =
          some (Int.fdiv ((5000 : Int) - (t : Int)) 1000))) :=
  ⟨(terminal_entry_duration [answeredCallCx] "c3" "A" "r" .ended 43000 answeredCallCx
      (Or.inl rfl)).1 1000 rfl rfl,
   by decide,
   (terminal_entry_duration [unansweredCallCx] "c1" "A" "bye" .ended 5000 unansweredCallCx
      (Or.inl rfl)).2.2 rfl (by decide)⟩

/-- A message already marked read by its recipient. -/
def readMsgCx : Message :=
  { id := "m1", sender_id := "A", recipient_id := "B", content := "hi",
    message_type := "text", file_url := none, is_read := true, read_at := some 10,
    is_deleted := false, deleted_at := none, created_at := 1 }

/-- A registry in which the original sender A is online. -/
def senderOnlineCx : SocketState :=
  { connectedUsers := [("sA", { userId := "A", socketId := "sA", isOnline := true,
                                lastSeen := 0 })],
    userSocketMap := [("A", "sA")] }

/-- Claim C6 counterexample: a repeated markRead of an already-read message
leaves the store unchanged but does push the read-receipt to the online
sender again — the handler emits it unconditionally, so the claim's
"no second read-receipt push" is false. -/
theorem markRead_repeat_pushes_receipt_again :
    handleMarkRead [readMsgCx] senderOnlineCx "B" (some "m1") (some "A") 20 =
      { ack_success := true, ack_error := none, store := [readMsgCx],
        pushes := [PushEvent.messageRead "sA" "B" (some "m1") 20] } ∧
    [PushEvent.messageRead "sA" "B" (some "m1") 20] ≠ ([] : List PushEvent) := by
  refine ⟨rfl, ?_⟩
  decide

/-- Claim C6 (amended): marking an already-read message is a successful
no-op on the store — is_read and read_at are unchanged and zero rows are
affected — but the socket handler pushes the read-receipt unconditionally:
whenever the request names a sender whose socket is registered, a repeat
mark_read pushes a second receipt; no receipt is pushed only when that
sender is offline (or the request omits the sender). -/
theorem markRead_noop_but_unconditional_receipt (msgs : List Message) (st : SocketState)
    (readerId mid sid ssid : String) (now : Time)
    (hmid : mid ≠ "")
    (hread : ∀ m ∈ msgs, m.id = mid → m.recipient_id = readerId → m.is_read = true) :
    markMessageAsRead msgs mid readerId now = .ok (0, msgs) ∧
    (lookupSocket st sid = some ssid →
      handleMarkRead msgs st readerId (some mid) (some sid) now =
        { ack_success := true, ack_error := none, store := msgs,
          pushes := [PushEvent.messageRead ssid readerId (some mid) now] }) ∧
    (lookupSocket st sid = none →
      handleMarkRead msgs st readerId (some mid) (some sid) now =
        { ack_success := true, ack_error := none, store := msgs, pushes := [] }) := by
  have hnoop : markMessageAsRead msgs mid readerId now = .ok (0, msgs) := by
    apply markMessageAsRead_noop_of_no_hit
    intro m hm
    cases hx : (m.id == mid && m.recipient_id == readerId && !m.is_read) with
    | false => rfl
    | true =>
      exfalso
      simp only [Bool.and_eq_true, beq_iff_eq, Bool.not_eq_true'] at hx
      have := hread m hm hx.1.1 hx.1.2
      rw [this] at hx
      exact absurd hx.2 (by decide)
  refine ⟨hnoop, ?_, ?_⟩
  · intro hlook
    simp [handleMarkRead, truthy, hmid, hnoop, hlook, Except.map]
  · intro hlook
    simp [handleMarkRead, truthy, hmid, hnoop, hlook, Except.map]

/-- Claim C6 witness: the amended statement at the concrete already-read
message, once with the sender online and once with an empty registry. -/
theorem markRead_noop_but_unconditional_receipt_witness :
    markMessageAsRead [readMsgCx] "m1" "B" 20 = .ok (0, [readMsgCx]) ∧
    handleMarkRead [readMsgCx] SocketState.empty "B" (some "m1") (some "A") 20 =
      { ack_success := true, ack_error := none, store := [readMsgCx], pushes := [] } :=
  ⟨(markRead_noop_but_unconditional_receipt [readMsgCx] senderOnlineCx "B" "m1" "A" "sA" 20
      (by decide) (by decide)).1,
   (markRead_noop_but_unconditional_receipt [readMsgCx] SocketState.empty "B" "m1" "A" "sA" 20
      (by decide) (by decide)).2.2 rfl⟩

/-- Claim C8: a successful send persists the message to the store — the
same appended store for every registry state, so persistence does not
depend on presence — acknowledges success, and pushes new_message to the
recipient's connection exactly when the presence registry maps the
recipient at send time; the transport outcome of the push is ignored, so
a failed push changes neither the acknowledgement nor the store. -/
theorem send_persists_then_best_effort_push (users : List User) (msgs : List Message)
    (st : SocketState) (a b content mtype : String) (fileUrl : Option String)
    (nid : String) (now : Time) (pushOk : Bool)
    (hb : b ≠ "") (hc : content ≠ "") (hres : resolvesToActiveAccount users b) :
    (handleSendMessage users msgs st a b content mtype fileUrl nid now pushOk).store =
      msgs ++ [newMessageRecord nid a b content mtype fileUrl now] ∧
    (handleSendMessage users msgs st a b content mtype fileUrl nid now pushOk).ack_success =
      true ∧
    (handleSendMessage users msgs st a b content mtype fileUrl nid now pushOk).pushes =
      (match lookupSocket st b with
       | some sid =>
         [PushEvent.newMessage sid (newMessageRecord nid a b content mtype fileUrl now) pushOk]
       | none => []) ∧
    ((handleSendMessage users msgs st a b content mtype fileUrl nid now pushOk).pushes = []
      ↔ lookupSocket st b = none) ∧
    (handleSendMessage users msgs st a b content mtype fileUrl nid now true).store =
      (handleSendMessage users msgs st a b content mtype fileUrl nid now false).store ∧
    (handleSendMessage users msgs st a b content mtype fileUrl nid now true).ack_success =
      (handleSendMessage users msgs st a b content mtype fileUrl nid now false).ack_success := by
  cases hu : findActiveUser users b with
  | none =>
    rw [findActiveUser_eq_none_iff] at hu
    exact absurd hres hu
  | some u =>
    have hguard : (b == "" || content == "") = false := by simp [hb, hc]
    cases hl : lookupSocket st b with
    | some sid =>
      refine ⟨?_, ?_, ?_, ?_, ?_, ?_⟩ <;>
        simp [handleSendMessage, sendMessage, hu, hguard, hl]
    | none =>
      refine ⟨?_, ?_, ?_, ?_, ?_, ?_⟩ <;>
        simp [handleSendMessage, sendMessage, hu, hguard, hl]

/-- Claim C8 witness: a concrete send with the recipient online — the
message is appended to the store and pushed — evaluated through the
theorem with its hypotheses discharged by computation. -/
theorem send_persists_then_best_effort_push_witness :
    (handleSendMessage [{ id := "B", name := "B", avatar := none, is_active := true }] []
      { connectedUsers := [("sB", { userId := "B", socketId := "sB", isOnline := true,
                                    lastSeen := 0 })],
        userSocketMap := [("B", "sB")] }
      "A" "B" "hi" "text" none "m1" 9 true).store =
      [] ++ [newMessageRecord "m1" "A" "B" "hi" "text" none 9] ∧
    (handleSendMessage [{ id := "B", name := "B", avatar := none, is_active := true }] []
      { connectedUsers := [("sB", { userId := "B", socketId := "sB", isOnline := true,
                                    lastSeen := 0 })],
        userSocketMap := [("B", "sB")] }
      "A" "B" "hi" "text" none "m1" 9 true).ack_success = true :=
  ⟨(send_persists_then_best_effort_push _ _ _ "A" "B" "hi" "text" none "m1" 9 true
      (by decide) (by decide) (by decide)).1,
   (send_persists_then_best_effort_push _ _ _ "A" "B" "hi" "text" none "m1" 9 true
      (by decide) (by decide) (by decide)).2.1⟩

/-- Claim C1 (amended): startCall does preserve the one-active-call
invariant — if every user has at most one non-terminal call before a
successful startCall, the same holds after, because the existence check
covers both parties. (The invariant nevertheless fails at some reachable
states; see the accompanying counterexample.) -/
theorem startCall_preserves_one_active_call (users : List User) (calls : List Call)
    (a b k nid : String) (now : Time) (c : Call) (calls2 : List Call)
    (hinv : oneActiveInvariant calls)
    (hok : startCall users calls a b k nid now = .ok (c, calls2)) :
    oneActiveInvariant calls2 := by
  unfold startCall at hok
  cases hu : findActiveUser users b with
  | none => rw [hu] at hok; simp at hok
  | some u =>
    rw [hu] at hok
    by_cases hab : (a == b) = true
    · rw [if_pos hab] at hok
      simp at hok
    · rw [if_neg hab] at hok
      cases hconf : calls.find? (activeConflictRow a b) with
      | some c0 => rw [hconf] at hok; simp at hok
      | none =>
        rw [hconf] at hok
        simp only [Except.ok.injEq, Prod.mk.injEq] at hok
        obtain ⟨hc, hcalls⟩ := hok
        subst hcalls
        have hnone := List.find?_eq_none.mp hconf
        intro uid
        have hsplit : activeCallsOf (calls ++ [newCallRecord nid a b k now]) uid =
            activeCallsOf calls uid ++ activeCallsOf [newCallRecord nid a b k now] uid := by
          simp [activeCallsOf, List.filter_append]
        rw [hsplit]
        by_cases hcase : (a == uid || b == uid) = true
        · have hcase2 : a = uid ∨ b = uid := by
            simpa [Bool.or_eq_true, beq_iff_eq] using hcase
          have hempty : activeCallsOf calls uid = [] := by
            rw [activeCallsOf, List.filter_eq_nil_iff]
            intro x hx hpx
            apply hnone x hx
            simp only [Bool.and_eq_true, Bool.or_eq_true, beq_iff_eq] at hpx
            simp only [activeConflictRow, Bool.and_eq_true, Bool.or_eq_true, beq_iff_eq]
            refine ⟨?_, hpx.2⟩
            rcases hcase2 with h1 | h1 <;> rcases hpx.1 with h2 | h2 <;> subst h1 <;> tauto
          rw [hempty, List.nil_append]
          calc (activeCallsOf [newCallRecord nid a b k now] uid).length
              ≤ [newCallRecord nid a b k now].length := List.length_filter_le _ _
            _ = 1 := rfl
        · have hnew : activeCallsOf [newCallRecord nid a b k now] uid = [] := by
            have hp : ((newCallRecord nid a b k now).caller_id == uid ||
                (newCallRecord nid a b k now).callee_id == uid) = false := by
              simpa [newCallRecord] using hcase
            simp [activeCallsOf, hp]
          rw [hnew, List.append_nil]
          exact hinv uid

/-- The three active accounts of the reachability counterexample. -/
def cxUsers : List User :=
  [{ id := "A", name := "A", avatar := none, is_active := true },
   { id := "B", name := "B", avatar := none, is_active := true },
   { id := "C", name := "C", avatar := none, is_active := true }]

/-- First call A to B, created at t = 1000. -/
def cxCall1 : Call := newCallRecord "c1" "A" "B" "voice" 1000

/-- The first call after endCall at t = 2000. -/
def cxCall1End : Call := applyEndUpdate cxCall1 "completed" 2000

/-- Second call A to C, created at t = 3000 while the first is ended. -/
def cxCall2 : Call := newCallRecord "c2" "A" "C" "voice" 3000

/-- The ended first call revived to ringing through updateCallStatus. -/
def cxCall1Ring : Call := applyStatusUpdate cxCall1End .ringing 4000

/-- Store in which user A has two non-terminal calls. -/
def cxFinalCalls : List Call := [cxCall1Ring, cxCall2]

/-- Claim C1 witness: preservation applied at the empty store — the first
successful startCall leaves the invariant intact. -/
theorem startCall_preserves_one_active_call_witness :
    oneActiveInvariant [] ∧
    startCall cxUsers [] "A" "B" "voice" "c1" 1000 = .ok (cxCall1, [cxCall1]) ∧
    oneActiveInvariant [cxCall1] := by
  have hinv : oneActiveInvariant [] := by
    intro uid
    simp [activeCallsOf]
  exact ⟨hinv, by decide,
    startCall_preserves_one_active_call cxUsers [] "A" "B" "voice" "c1" 1000 cxCall1 [cxCall1]
      hinv (by decide)⟩

/-- Claim C1 counterexample: the one-active-call invariant does not hold at
every reachable state of the calls store. Start A-B, end it, start A-C,
then revive the ended A-B call to ringing via updateCallStatus (which has
no transition check): user A now has two non-terminal calls. -/
theorem one_active_call_invariant_reachable_violation :
    CallsReachable cxUsers cxFinalCalls ∧ ¬ oneActiveInvariant cxFinalCalls := by
  constructor
  · have h1 : startCall cxUsers [] "A" "B" "voice" "c1" 1000 = .ok (cxCall1, [cxCall1]) := by
      decide
    have h2 : endCall [cxCall1] "c1" "A" "completed" 2000 = .ok (cxCall1End, [cxCall1End]) := by
      decide
    have h3 : startCall cxUsers [cxCall1End] "A" "C" "voice" "c2" 3000 =
        .ok (cxCall2, [cxCall1End, cxCall2]) := by
      decide
    have h4 : updateCallStatus [cxCall1End, cxCall2] "c1" .ringing none 4000 =
        .ok (cxCall1Ring, cxFinalCalls) := by
      decide
    exact .step_update (.step_start (.step_end (.step_start .empty (by decide) h1) h2)
      (by decide) h3) h4
  · intro h
    exact absurd (h "A") (by decide)

/-- The store with soft-deleted messages erased. -/
def undeleted (msgs : List Message) : List Message :=
  msgs.filter (fun m => !m.is_deleted)

theorem filter_undeleted_eq (p : Message → Bool)
    (hp : ∀ m, p m = true → m.is_deleted = false) (msgs : List Message) :
    (undeleted msgs).filter p = msgs.filter p := by
  rw [undeleted, List.filter_filter]
  apply List.filter_congr
  intro m hm
  cases hx : p m with
  | false => simp
  | true => simp [hp m hx]

theorem mem_insertDescBy (key : Message → Time) (a x : Message) (l : List Message) :
    x ∈ insertDescBy key a l ↔ x = a ∨ x ∈ l := by
  induction l with
  | nil => simp [insertDescBy]
  | cons b bs ih =>
    simp only [insertDescBy]
    split
    · simp
    · simp only [List.mem_cons, ih]
      tauto

theorem mem_sortDescBy (key : Message → Time) (x : Message) (l : List Message) :
    x ∈ sortDescBy key l ↔ x ∈ l := by
  induction l with
  | nil => simp [sortDescBy]
  | cons b bs ih =>
    show x ∈ insertDescBy key b (sortDescBy key bs) ↔ _
    rw [mem_insertDescBy]
    simp [ih]

theorem mem_convInsert (r x : ConversationRow) (acc : List ConversationRow) :
    x ∈ convInsert r acc ↔ x = r ∨ x ∈ acc := by
  have h := List.takeWhile_append_dropWhile
    (p := fun y : ConversationRow => r.latest.created_at < y.latest.created_at) (l := acc)
  constructor
  · intro hx
    simp only [convInsert, List.mem_append, List.mem_cons] at hx
    rcases hx with h1 | h1 | h1
    · right
      rw [← h]
      exact List.mem_append.mpr (Or.inl h1)
    · exact Or.inl h1
    · right
      rw [← h]
      exact List.mem_append.mpr (Or.inr h1)
  · intro hx
    simp only [convInsert, List.mem_append, List.mem_cons]
    rcases hx with h1 | h1
    · exact Or.inr (Or.inl h1)
    · rw [← h] at h1
      rcases List.mem_append.mp h1 with h2 | h2
      · exact Or.inl h2
      · exact Or.inr (Or.inr h2)

theorem mem_convSortDesc (x : ConversationRow) (l : List ConversationRow) :
    x ∈ convSortDesc l ↔ x ∈ l := by
  induction l with
  | nil => simp [convSortDesc]
  | cons r rs ih =>
    show x ∈ convInsert r (convSortDesc rs) ↔ _
    rw [mem_convInsert]
    simp [ih]

theorem latestOf_foldl_mem (l : List Message) (acc : Option Message) (x : Message)
    (h : l.foldl (fun acc m =>
      match acc with
      | none => some m
      | some b => if b.created_at < m.created_at then some m else acc) acc = some x) :
    acc = some x ∨ x ∈ l := by
  induction l generalizing acc with
  | nil => exact Or.inl h
  | cons m rest ih =>
    rcases ih _ h with hstep | hmem
    · cases hacc : acc with
      | none =>
        rw [hacc] at hstep
        right
        exact List.mem_cons.mpr (Or.inl (Option.some.inj hstep).symm)
      | some b =>
        rw [hacc] at hstep
        simp only at hstep
        split at hstep
        · right
          exact List.mem_cons.mpr (Or.inl (Option.some.inj hstep).symm)
        · left
          exact hstep
    · exact Or.inr (List.mem_cons.mpr (Or.inr hmem))

theorem latestOf_mem (l : List Message) (x : Message) (h : latestOf l = some x) : x ∈ l := by
  rcases latestOf_foldl_mem l none x h with h1 | h1
  · exact absurd h1 (by simp)
  · exact h1

/-- Claim C7: a soft-deleted message never appears in getMessageHistory,
searchMessages, or getConversations output for either party — each
projection equals the same projection over the store with deleted
messages erased (so the latest-message and unread-count projections are
unaffected by deleted rows), and every message or latest-message surfaced
by an output has is_deleted = false. -/
theorem deleted_messages_never_surface (users : List User) (msgs : List Message)
    (uid other q : String) (page limit : Nat) :
    getMessageHistory users msgs uid other page limit =
      getMessageHistory users (undeleted msgs) uid other page limit ∧
    searchMessages msgs uid q page limit =
      searchMessages (undeleted msgs) uid q page limit ∧
    getConversations users msgs uid page limit =
      getConversations users (undeleted msgs) uid page limit ∧
    (∀ l, getMessageHistory users msgs uid other page limit = .ok l →
      ∀ m ∈ l, m.is_deleted = false) ∧
    (∀ m ∈ searchMessages msgs uid q page limit, m.is_deleted = false) ∧
    (∀ row ∈ getConversations users msgs uid page limit, row.latest.is_deleted = false) := by
  have hHist : (undeleted msgs).filter (historyRowFilter uid other) =
      msgs.filter (historyRowFilter uid other) := by
    apply filter_undeleted_eq
    intro m hm
    simp only [historyRowFilter, Bool.and_eq_true, Bool.not_eq_true'] at hm
    exact hm.2
  have hSearch : (undeleted msgs).filter (searchRowFilter uid q) =
      msgs.filter (searchRowFilter uid q) := by
    apply filter_undeleted_eq
    intro m hm
    simp only [searchRowFilter, Bool.and_eq_true, Bool.not_eq_true'] at hm
    exact hm.1.2
  have hConv : (undeleted msgs).filter (conversationRowFilter uid) =
      msgs.filter (conversationRowFilter uid) := by
    apply filter_undeleted_eq
    intro m hm
    simp only [conversationRowFilter, Bool.and_eq_true, Bool.not_eq_true'] at hm
    exact hm.2
  have hUnread : ∀ p, unreadCountFrom (undeleted msgs) uid p = unreadCountFrom msgs uid p := by
    intro p
    unfold unreadCountFrom
    rw [filter_undeleted_eq]
    intro m hm
    simp only [Bool.and_eq_true, Bool.not_eq_true'] at hm
    exact hm.2
  refine ⟨?_, ?_, ?_, ?_, ?_, ?_⟩
  · cases huo : findActiveUser users other with
    | none => simp [getMessageHistory, huo]
    | some u => simp [getMessageHistory, huo, hHist]
  · simp [searchMessages, hSearch]
  · simp only [getConversations, hConv, hUnread]
  · intro l hl m hm
    cases huo : findActiveUser users other with
    | none => simp [getMessageHistory, huo] at hl
    | some u =>
      simp only [getMessageHistory, huo, Except.ok.injEq] at hl
      rw [← hl] at hm
      have h1 := List.mem_reverse.mp hm
      rw [paginate] at h1
      have h2 := List.mem_of_mem_drop (List.mem_of_mem_take h1)
      have h3 := (mem_sortDescBy Message.created_at m _).mp h2
      have hp := (List.mem_filter.mp h3).2
      simp only [historyRowFilter, Bool.and_eq_true, Bool.not_eq_true'] at hp
      exact hp.2
  · intro m hm
    rw [searchMessages, paginate] at hm
    have h2 := List.mem_of_mem_drop (List.mem_of_mem_take hm)
    have h3 := (mem_sortDescBy Message.created_at m _).mp h2
    have hp := (List.mem_filter.mp h3).2
    simp only [searchRowFilter, Bool.and_eq_true, Bool.not_eq_true'] at hp
    exact hp.1.2
  · intro row hrow
    rw [getConversations] at hrow
    have h2 := List.mem_of_mem_drop (List.mem_of_mem_take hrow)
    have h3 := (mem_convSortDesc row _).mp h2
    obtain ⟨p, hp, hfp⟩ := List.mem_filterMap.mp h3
    cases hlm : latestOf ((msgs.filter (conversationRowFilter uid)).filter
        (fun m => otherUserOf uid m == p)) with
    | none => rw [hlm] at hfp; cases huu : findActiveUser users p <;> simp [huu] at hfp
    | some lm =>
      rw [hlm] at hfp
      cases huu : findActiveUser users p with
      | none => simp [huu] at hfp
      | some u0 =>
        simp only [huu] at hfp
        have hlatest : row.latest = lm := by
          have hrec := Option.some.inj hfp
          rw [← hrec]
        have hmem := latestOf_mem _ _ hlm
        have h4 := (List.mem_filter.mp hmem).1
        have h5 := (List.mem_filter.mp h4).2
        simp only [conversationRowFilter, Bool.and_eq_true, Bool.not_eq_true'] at h5
        rw [hlatest]
        exact h5.2

/-- A soft-deleted message between A and B. -/
def wDeletedMsg : Message :=
  { id := "m9", sender_id := "A", recipient_id := "B", content := "secret",
    message_type := "text", file_url := none, is_read := false, read_at := none,
    is_deleted := true, deleted_at := some 5, created_at := 2 }

/-- Claim C7 witness: over a store holding only a deleted message, search
and conversations both come out empty, and the membership projection holds
vacuously at the concrete store. -/
theorem deleted_messages_never_surface_witness :
    searchMessages [wDeletedMsg] "A" "sec" 1 20 = [] ∧
    getConversations [] [wDeletedMsg] "A" 1 20 = [] ∧
    (∀ m ∈ searchMessages [wDeletedMsg] "A" "sec" 1 20, m.is_deleted = false) := by
  refine ⟨?_, ?_, ?_⟩
  · rw [(deleted_messages_never_surface [] [wDeletedMsg] "A" "B" "sec" 1 20).2.1]
    rfl
  · rw [(deleted_messages_never_surface [] [wDeletedMsg] "A" "B" "sec" 1 20).2.2.1]
    rfl
  · exact (deleted_messages_never_surface [] [wDeletedMsg] "A" "B" "sec" 1 20).2.2.2.2.1
